import Mathlib

/-!
Verification development for the `linkedbot` repository's human-behavior
simulation core (`internal/stealth`, Go) and its SQLite bookkeeping layer
(`internal/store`, Go).

The Go source is shallowly embedded: every Go function that the properties
below talk about becomes a pure Lean function.  Randomness is made explicit:
each call of Go's `rand.Intn(n)` becomes a `Fin n` (or `ℕ` plus a bound)
supplied through an environment record, and each `rand.Float64()` comparison
(`rand.Float64() < p`) becomes a `Bool` field.  `time.Sleep` is modelled by
returning the slept duration (sleeping zero or not sleeping at all are both
modelled as duration 0); sequences of browser-dispatch calls are modelled as
the list of dispatched values.

Go's `float64` arithmetic is modelled over `ℚ`.  Every property proved below
only inspects values at points where the `float64` computation is exact
(Bézier evaluation at parameter exactly 0 or 1, multiplication by exactly
0 or 1, conversions of integers below 2^53), so the rational model agrees
with the IEEE-754 double computation at every inspected point.  Genuinely
transcendental intermediate values (`math.Cos`/`math.Sin` of an `Atan2`
angle, the Box–Muller normal deviate) are taken as unconstrained `ℚ`
parameters and universally quantified, which over-approximates the set of
values the Go code can produce.
-/

namespace LinkedBot

/-- Go's `int(f)` conversion from `float64` truncates toward zero.  On the
rational model this is `num.tdiv den` (T-division, also toward zero). -/
def goTrunc (q : ℚ) : ℤ := q.num.tdiv q.den

/-- Go's integer division `a / b` on `int` truncates toward zero, which is
`Int.tdiv` (not Lean's default Euclidean `/`). -/
def goIntDiv (a b : ℤ) : ℤ := a.tdiv b

theorem goTrunc_intCast (n : ℤ) : goTrunc (n : ℚ) = n := by
  simp [goTrunc, Rat.num_intCast, Rat.den_intCast, Int.tdiv_one]

/-! ## Timing generator (`internal/stealth`, `SleepRandom` / `SleepGaussian`)

`SleepRandom(minMs, maxMs)` first normalizes inverted bounds
(`if maxMs < minMs { maxMs = minMs }`) and then sleeps
`minMs + rand.Intn(maxMs-minMs+1)` milliseconds.  The `rand.Intn` draw is
the explicit argument `r`, constrained by the hypothesis `r < n` exactly as
`rand.Intn(n)` guarantees `0 ≤ r < n`. -/

/-- The normalized upper bound computed by `SleepRandom`'s first line:
`if maxMs < minMs { maxMs = minMs }`. -/
def normalizedMax (minMs maxMs : ℤ) : ℤ := if maxMs < minMs then minMs else maxMs

/-- Milliseconds slept by `SleepRandom(minMs, maxMs)` when the
`rand.Intn(maxMs-minMs+1)` draw (after normalization) returns `r`. -/
def SleepRandom (minMs maxMs : ℤ) (r : ℕ) : ℤ := minMs + r

/-- `SleepGaussian` computes `delay := int(float64(meanMs) + z*float64(stdDevMs))`
where `z` is the Box–Muller deviate, then clamps `delay` into
`[meanMs-3*stdDevMs, meanMs+3*stdDevMs]`.  `z` is transcendental, so it is an
unconstrained rational parameter here. -/
def SleepGaussianDelay (meanMs stdDevMs : ℤ) (z : ℚ) : ℤ :=
  let delay := goTrunc ((meanMs : ℚ) + z * (stdDevMs : ℚ))
  let minDelay := meanMs - 3 * stdDevMs
  let maxDelay := meanMs + 3 * stdDevMs
  if delay < minDelay then minDelay
  else if delay > maxDelay then maxDelay
  else delay

/-- Milliseconds actually slept by `SleepGaussian`: the code runs
`time.Sleep` only under `if delay > 0`, so a non-positive clamped delay
sleeps for 0 ms. -/
def SleepGaussianSlept (meanMs stdDevMs : ℤ) (z : ℚ) : ℤ :=
  if SleepGaussianDelay meanMs stdDevMs z > 0 then SleepGaussianDelay meanMs stdDevMs z else 0

/-- C3: for every mean/stddev pair (with the nonnegativity a standard
deviation and a millisecond mean carry by definition) and every Box–Muller
draw `z`, the clamped Gaussian delay lies in
`[meanMs - 3*stdDevMs, meanMs + 3*stdDevMs]`, and the duration actually
slept is the clamped delay floored at zero: it is nonnegative, it is `0`
whenever the clamped delay is non-positive (the sleep is skipped), and it
also lies in the clamp interval. -/
theorem sleepGaussian_clamped_nonneg (meanMs stdDevMs : ℤ) (z : ℚ)
    (hm : 0 ≤ meanMs) (hs : 0 ≤ stdDevMs) :
    meanMs - 3 * stdDevMs ≤ SleepGaussianDelay meanMs stdDevMs z ∧
    SleepGaussianDelay meanMs stdDevMs z ≤ meanMs + 3 * stdDevMs ∧
    SleepGaussianSlept meanMs stdDevMs z = max 0 (SleepGaussianDelay meanMs stdDevMs z) ∧
    0 ≤ SleepGaussianSlept meanMs stdDevMs z ∧
    meanMs - 3 * stdDevMs ≤ SleepGaussianSlept meanMs stdDevMs z ∧
    SleepGaussianSlept meanMs stdDevMs z ≤ meanMs + 3 * stdDevMs := by
  have hd : meanMs - 3 * stdDevMs ≤ SleepGaussianDelay meanMs stdDevMs z ∧
      SleepGaussianDelay meanMs stdDevMs z ≤ meanMs + 3 * stdDevMs := by
    unfold SleepGaussianDelay
    dsimp only
    split_ifs <;> omega
  obtain ⟨h1, h2⟩ := hd
  unfold SleepGaussianSlept
  split_ifs with h <;> exact ⟨h1, h2, by omega, by omega, by omega, by omega⟩

/-- Witness for C3 at `ThinkTime`'s parameters `(1400, 600)` and a deviate
`z = -7` far in the left tail (raw delay `1400 - 4200 < 0`). -/
theorem sleepGaussian_clamped_nonneg_witness :
    (0:ℤ) ≤ 1400 ∧ (0:ℤ) ≤ 600 ∧
    (1400 - 3 * 600 ≤ SleepGaussianDelay 1400 600 (-7) ∧
     SleepGaussianDelay 1400 600 (-7) ≤ 1400 + 3 * 600 ∧
     SleepGaussianSlept 1400 600 (-7) = max 0 (SleepGaussianDelay 1400 600 (-7)) ∧
     0 ≤ SleepGaussianSlept 1400 600 (-7) ∧
     1400 - 3 * 600 ≤ SleepGaussianSlept 1400 600 (-7) ∧
     SleepGaussianSlept 1400 600 (-7) ≤ 1400 + 3 * 600) :=
  ⟨by norm_num, by norm_num,
    sleepGaussian_clamped_nonneg 1400 600 (-7) (by norm_num) (by norm_num)⟩

/-- C4: with `maxMs < minMs` the bounds are normalized to `[minMs, minMs]`
rather than failing or inverting: every admissible `rand.Intn` draw keeps
the slept duration in `[minMs, normalizedMax]`, and for the inverted pair
`(100, 50)` the result is exactly `100`. -/
theorem sleepRandom_normalizes_inverted_bounds (minMs maxMs : ℤ) (r : ℕ)
    (hr : (r : ℤ) < normalizedMax minMs maxMs - minMs + 1) :
    minMs ≤ SleepRandom minMs maxMs r ∧
    SleepRandom minMs maxMs r ≤ normalizedMax minMs maxMs ∧
    (minMs = 100 ∧ maxMs = 50 → SleepRandom minMs maxMs r = 100) := by
  unfold SleepRandom
  unfold normalizedMax at hr ⊢
  split_ifs at hr ⊢ with h <;>
    refine ⟨by omega, by omega, ?_⟩ <;> rintro ⟨rfl, rfl⟩ <;> omega

/-- Witness for C4 at the inverted pair `(100, 50)`: `rand.Intn(100-100+1)`
can only return `0` and the slept duration is exactly `100` ms. -/
theorem sleepRandom_normalizes_inverted_bounds_witness :
    ((0:ℕ) : ℤ) < normalizedMax 100 50 - 100 + 1 ∧ SleepRandom 100 50 0 = 100 :=
  ⟨by norm_num [normalizedMax],
    (sleepRandom_normalizes_inverted_bounds 100 50 0
      (by norm_num [normalizedMax])).2.2 ⟨rfl, rfl⟩⟩

/-! ## Typing generator (`internal/stealth`, `TypeHumanLike`)

`TypeHumanLike(el, text)` walks `for i, r := range text` (so `i` is the
byte offset of the rune `r`).  With probability `0.02`, and only when
`i > 3`, it first inserts a keyboard-nearby wrong character, then inputs
`"\b"` — a backspace, i.e. a delete of the last character of the field —
and only then inserts the correct character.  The per-index typo coin
`rand.Float64() < 0.02` is the oracle `typoAt`, the wrong character chosen
by `randomNearbyRune` is the oracle `wrongAt`, and the text field is a
character buffer to which insert/backspace events are applied in order.
The inter-event sleeps do not touch the buffer and are omitted from the
event list. -/

/-- One event dispatched to the text field: `el.Input(ch)` for a single
character, or `el.Input("\b")` (backspace). -/
inductive TypingEvent where
  | ins (c : Char)
  | del
deriving DecidableEq, Repr

/-- Event sequence produced by `TypeHumanLike` on the suffix of the text
starting at byte offset `i`.  The index advances by the UTF-8 byte size of
each rune, exactly as Go's `range` over a string does. -/
def TypeHumanLike (typoAt : ℕ → Bool) (wrongAt : ℕ → Char) :
    List Char → ℕ → List TypingEvent
  | [], _ => []
  | c :: rest, i =>
      (if typoAt i && decide (3 < i) then [TypingEvent.ins (wrongAt i), TypingEvent.del]
       else []) ++
        TypingEvent.ins c :: TypeHumanLike typoAt wrongAt rest (i + c.utf8Size)

/-- Semantics of the text field: `ins c` appends, `del` (backspace) removes
the last character. -/
def applyTyping : List TypingEvent → List Char → List Char
  | [], buf => buf
  | TypingEvent.ins c :: es, buf => applyTyping es (buf ++ [c])
  | TypingEvent.del :: es, buf => applyTyping es buf.dropLast

theorem applyTyping_typeHumanLike (typoAt : ℕ → Bool) (wrongAt : ℕ → Char)
    (text : List Char) :
    ∀ (i : ℕ) (buf : List Char),
      applyTyping (TypeHumanLike typoAt wrongAt text i) buf = buf ++ text := by
  induction text with
  | nil => intro i buf; simp [TypeHumanLike, applyTyping]
  | cons c rest ih =>
      intro i buf
      by_cases h : typoAt i && decide (3 < i)
      · simp only [TypeHumanLike, h, if_true, List.cons_append, List.nil_append,
          applyTyping, List.dropLast_concat, ih]
        simp
      · simp only [TypeHumanLike, h, if_false, List.nil_append, applyTyping, ih]
        simp

/-- C1: for every text and every outcome of the typo coins and wrong-character
choices (hence for every random seed), applying the full event sequence of
`TypeHumanLike` to an initially empty text field yields exactly the input
text: each wrong character is inserted immediately before a backspace that
removes it again, so no typo survives into the final content. -/
theorem typeHumanLike_roundtrip (typoAt : ℕ → Bool) (wrongAt : ℕ → Char)
    (text : List Char) :
    applyTyping (TypeHumanLike typoAt wrongAt text 0) [] = text := by
  simpa using applyTyping_typeHumanLike typoAt wrongAt text 0 []

/-! ## Active-hours gate (`internal/stealth`, `InActiveWindow`)

`InActiveWindow(start, end)` parses the `"HH:MM"` bounds, rebuilds them as
today's wall-clock instants with seconds and nanoseconds zero, and returns
`now.After(startToday) && now.Before(endToday)`.  For instants of the same
day `After`/`Before` compare the time of day, modelled in nanoseconds. -/

/-- Nanoseconds after local midnight of the wall-clock time `h:m:s.ns`. -/
def timeOfDayNanos (h m s ns : ℕ) : ℕ := ((h * 3600 + m * 60 + s) * 1000000000) + ns

/-- `InActiveWindow` with the current time of day given as nanoseconds after
midnight and the parsed window bounds as hours/minutes:
`now.After(startToday) && now.Before(endToday)`. -/
def InActiveWindow (nowNs : ℕ) (startH startM endH endM : ℕ) : Bool :=
  decide (timeOfDayNanos startH startM 0 0 < nowNs) &&
    decide (nowNs < timeOfDayNanos endH endM 0 0)

/-- C7: the gate holds exactly when the current time of day lies strictly
between the window bounds, and on the window `09:00–18:00` the sample times
behave as the specification's examples require: `08:59` is outside, `09:01`
and `17:59` inside, `18:01` outside.  The gate is a pure predicate of its
inputs (it computes a `Bool`, it performs no sleeping). -/
theorem inActiveWindow_strictly_between (nowNs startH startM endH endM : ℕ) :
    (InActiveWindow nowNs startH startM endH endM = true ↔
      timeOfDayNanos startH startM 0 0 < nowNs ∧ nowNs < timeOfDayNanos endH endM 0 0) ∧
    InActiveWindow (timeOfDayNanos 8 59 0 0) 9 0 18 0 = false ∧
    InActiveWindow (timeOfDayNanos 9 1 0 0) 9 0 18 0 = true ∧
    InActiveWindow (timeOfDayNanos 17 59 0 0) 9 0 18 0 = true ∧
    InActiveWindow (timeOfDayNanos 18 1 0 0) 9 0 18 0 = false := by
  refine ⟨?_, by decide, by decide, by decide, by decide⟩
  simp [InActiveWindow]

/-! ## Trajectory generator (`internal/stealth`, `MoveMouseHumanLike`)

`MoveMouseHumanLike(p, fromX, fromY, toX, toY)` computes
`dist = √((toX-fromX)² + (toY-fromY)²)` as a `float64`,
`steps = 40 + int(dist/20) + rand.Intn(15)`, two Bézier control points with
`rand.Intn(100)-50` jitter, an optional overshoot target, and then
dispatches one `mousemove` per `i = 0..steps` at the Bézier point for the
eased parameter `t = i/steps`, plus `rand.Intn(3)-1` per-axis jitter,
followed (with probability `0.4`) by two micro-correction moves around the
target.  All random draws are fields of `MoveEnv`; `rand.Intn(n)` draws are
`Fin n`.  `math.Cos`/`math.Sin` of the `Atan2` approach angle are
transcendental and enter only the overshoot target, whose coefficient in
every dispatched point inspected below is `0` or cancelled; they are carried
as unconstrained rational fields `angCos`/`angSin`.

For integer inputs below 2^26, `int(dist/20)` computed over `float64` equals
`Nat.sqrt ((toX-fromX)² + (toY-fromY)²) / 20`: IEEE-754 square root is
correctly rounded and an integer radicand cannot fall within half an ulp of
a multiple of 20 unless it is exactly its square, so the floor is unaffected
by rounding. -/

/-- One trajectory call's worth of random draws (in source order):
`rand.Intn(15)` for the step count, four `rand.Intn(100)` for the control
points, the overshoot coin `rand.Float64() < 0.3`, `rand.Intn(15)` for the
overshoot magnitude, the per-step jitter draws `rand.Intn(3)` (x then y),
the micro-correction coin `rand.Float64() < 0.4` and its two pairs of
`rand.Intn(3)` draws.  The per-step `rand.Intn(10)`/`rand.Intn(30)` delay
draws never influence a dispatched position and are omitted. -/
structure MoveEnv where
  stepsR : Fin 15
  c1xR : Fin 100
  c1yR : Fin 100
  c2xR : Fin 100
  c2yR : Fin 100
  overshoot : Bool
  magR : Fin 15
  angCos : ℚ
  angSin : ℚ
  jxR : ℕ → Fin 3
  jyR : ℕ → Fin 3
  micro : Bool
  mjR : Fin 2 → Fin 3 × Fin 3

/-- `(toX-fromX)² + (toY-fromY)²`, the radicand of the distance. -/
def distSq (fromX fromY toX toY : ℤ) : ℕ := ((toX - fromX) ^ 2 + (toY - fromY) ^ 2).toNat

/-- `int(dist/20)` of the source, with the float computation replaced by the
exact `Nat.sqrt` (see the section comment for why these agree). -/
def distDiv20 (fromX fromY toX toY : ℤ) : ℕ := Nat.sqrt (distSq fromX fromY toX toY) / 20

/-- `steps := baseSteps + rand.Intn(15)` where
`baseSteps := 40 + int(dist/20)`. -/
def moveSteps (env : MoveEnv) (fromX fromY toX toY : ℤ) : ℕ :=
  40 + distDiv20 fromX fromY toX toY + env.stepsR

/-- First Bézier control point, x: `fromX + (toX-fromX)/3 + rand.Intn(100) - 50`
(Go `int` division truncates toward zero). -/
def moveCx1 (env : MoveEnv) (fromX toX : ℤ) : ℤ :=
  fromX + goIntDiv (toX - fromX) 3 + (env.c1xR : ℕ) - 50

def moveCy1 (env : MoveEnv) (fromY toY : ℤ) : ℤ :=
  fromY + goIntDiv (toY - fromY) 3 + (env.c1yR : ℕ) - 50

/-- Second Bézier control point, x: `fromX + 2*(toX-fromX)/3 + rand.Intn(100) - 50`. -/
def moveCx2 (env : MoveEnv) (fromX toX : ℤ) : ℤ :=
  fromX + goIntDiv (2 * (toX - fromX)) 3 + (env.c2xR : ℕ) - 50

def moveCy2 (env : MoveEnv) (fromY toY : ℤ) : ℤ :=
  fromY + goIntDiv (2 * (toY - fromY)) 3 + (env.c2yR : ℕ) - 50

/-- Overshoot target, x: `toX + int(float64(overshootMag)*math.Cos(angle))`
with `overshootMag = 5 + rand.Intn(15)` and `angle = Atan2(toY-fromY, toX-fromX)`. -/
def overshootPtX (env : MoveEnv) (toX : ℤ) : ℤ :=
  toX + goTrunc (((5 + (env.magR : ℕ) : ℕ) : ℚ) * env.angCos)

def overshootPtY (env : MoveEnv) (toY : ℤ) : ℤ :=
  toY + goTrunc (((5 + (env.magR : ℕ) : ℕ) : ℚ) * env.angSin)

/-- `easeInOutCubic`: `4t³` for `t < 0.5`, else `1 - (-2t+2)³/2`. -/
def easeInOutCubic (t : ℚ) : ℚ :=
  if t < 1 / 2 then 4 * t * t * t else 1 - (-2 * t + 2) ^ 3 / 2

/-- `cubicBezier(p0, p1, p2, p3, t)`. -/
def cubicBezier (p0 p1 p2 p3 t : ℚ) : ℚ :=
  (1 - t) ^ 3 * p0 + 3 * (1 - t) ^ 2 * t * p1 + 3 * (1 - t) * t ^ 2 * p2 + t ^ 3 * p3

/-- The `mousemove` position dispatched at loop index `i` (`0 ≤ i ≤ steps`,
with `steps` computed once before the loop): the eased Bézier point — or, in
the overshoot phase `i > steps-5`, the blend of the Bézier value at `t = 1`
toward the exact target — plus `rand.Intn(3) - 1` jitter on each axis. -/
def movePoint (env : MoveEnv) (fromX fromY toX toY : ℤ) (steps i : ℕ) : ℤ × ℤ :=
  let t := easeInOutCubic ((i : ℚ) / (steps : ℚ))
  let x :=
    if env.overshoot ∧ steps - 5 < i then
      let progress := ((i - (steps - 5) : ℕ) : ℚ) / 5
      goTrunc (cubicBezier (fromX : ℚ) (moveCx1 env fromX toX : ℚ) (moveCx2 env fromX toX : ℚ)
          (overshootPtX env toX : ℚ) 1 * (1 - progress) + (toX : ℚ) * progress)
    else
      goTrunc (cubicBezier (fromX : ℚ) (moveCx1 env fromX toX : ℚ) (moveCx2 env fromX toX : ℚ)
          (toX : ℚ) t)
  let y :=
    if env.overshoot ∧ steps - 5 < i then
      let progress := ((i - (steps - 5) : ℕ) : ℚ) / 5
      goTrunc (cubicBezier (fromY : ℚ) (moveCy1 env fromY toY : ℚ) (moveCy2 env fromY toY : ℚ)
          (overshootPtY env toY : ℚ) 1 * (1 - progress) + (toY : ℚ) * progress)
    else
      goTrunc (cubicBezier (fromY : ℚ) (moveCy1 env fromY toY : ℚ) (moveCy2 env fromY toY : ℚ)
          (toY : ℚ) t)
  (x + ((env.jxR i : ℕ) : ℤ) - 1, y + ((env.jyR i : ℕ) : ℤ) - 1)

/-- The full sequence of `mousemove` positions dispatched by
`MoveMouseHumanLike`: the main loop `i = 0..steps`, then, when the
micro-correction coin fires, two extra positions `(toX + dx, toY + dy)` with
`dx, dy = rand.Intn(3) - 1`. -/
def MoveMouseHumanLike (env : MoveEnv) (fromX fromY toX toY : ℤ) : List (ℤ × ℤ) :=
  (List.range (moveSteps env fromX fromY toX toY + 1)).map
      (movePoint env fromX fromY toX toY (moveSteps env fromX fromY toX toY)) ++
    (if env.micro then
      [(toX + (((env.mjR 0).1 : ℕ) : ℤ) - 1, toY + (((env.mjR 0).2 : ℕ) : ℤ) - 1),
       (toX + (((env.mjR 1).1 : ℕ) : ℤ) - 1, toY + (((env.mjR 1).2 : ℕ) : ℤ) - 1)]
     else [])

theorem cubicBezier_zero (p0 p1 p2 p3 : ℚ) : cubicBezier p0 p1 p2 p3 0 = p0 := by
  simp [cubicBezier]

theorem cubicBezier_one (p0 p1 p2 p3 : ℚ) : cubicBezier p0 p1 p2 p3 1 = p3 := by
  simp [cubicBezier]

theorem easeInOutCubic_zero : easeInOutCubic 0 = 0 := by norm_num [easeInOutCubic]

theorem easeInOutCubic_one : easeInOutCubic 1 = 1 := by norm_num [easeInOutCubic]

theorem movePoint_zero (env : MoveEnv) (fromX fromY toX toY : ℤ) (steps : ℕ) :
    movePoint env fromX fromY toX toY steps 0 =
      (fromX + ((env.jxR 0 : ℕ) : ℤ) - 1, fromY + ((env.jyR 0 : ℕ) : ℤ) - 1) := by
  have hcond : ¬ (env.overshoot = true ∧ steps - 5 < 0) := by rintro ⟨-, h⟩; omega
  unfold movePoint
  dsimp only
  rw [if_neg hcond, if_neg hcond, Nat.cast_zero, zero_div, easeInOutCubic_zero,
    cubicBezier_zero, cubicBezier_zero, goTrunc_intCast, goTrunc_intCast]

theorem movePoint_last (env : MoveEnv) (fromX fromY toX toY : ℤ) (steps : ℕ)
    (h5 : 5 ≤ steps) :
    movePoint env fromX fromY toX toY steps steps =
      (toX + ((env.jxR steps : ℕ) : ℤ) - 1, toY + ((env.jyR steps : ℕ) : ℤ) - 1) := by
  have hne : ((steps : ℚ)) ≠ 0 := Nat.cast_ne_zero.mpr (by omega)
  have hprog : ((steps - (steps - 5) : ℕ) : ℚ) / 5 = 1 := by
    rw [Nat.sub_sub_self h5]; norm_num
  have hblend : ∀ a b : ℚ, a * (1 - 1) + b * 1 = b := fun a b => by ring
  unfold movePoint
  dsimp only
  by_cases hov : env.overshoot = true ∧ steps - 5 < steps
  · rw [if_pos hov, if_pos hov, hprog, hblend, hblend, goTrunc_intCast, goTrunc_intCast]
  · rw [if_neg hov, if_neg hov, div_self hne, easeInOutCubic_one, cubicBezier_one,
      cubicBezier_one, goTrunc_intCast, goTrunc_intCast]

theorem moveMouse_head (env : MoveEnv) (fromX fromY toX toY : ℤ) :
    (MoveMouseHumanLike env fromX fromY toX toY).head? =
      some (movePoint env fromX fromY toX toY (moveSteps env fromX fromY toX toY) 0) := by
  unfold MoveMouseHumanLike
  rw [List.head?_append_of_ne_nil]
  · rw [List.range_succ_eq_map, List.map_cons, List.head?_cons]
  · rw [List.range_succ_eq_map, List.map_cons]; exact List.cons_ne_nil _ _

theorem moveMouse_getLast (env : MoveEnv) (fromX fromY toX toY : ℤ) :
    (MoveMouseHumanLike env fromX fromY toX toY).getLast? =
      some (if env.micro then
              (toX + (((env.mjR 1).1 : ℕ) : ℤ) - 1, toY + (((env.mjR 1).2 : ℕ) : ℤ) - 1)
            else movePoint env fromX fromY toX toY (moveSteps env fromX fromY toX toY)
              (moveSteps env fromX fromY toX toY)) := by
  unfold MoveMouseHumanLike
  by_cases hm : env.micro
  · rw [if_pos hm, if_pos hm, List.getLast?_append]
    rfl
  · rw [if_neg hm, if_neg hm, List.append_nil, List.range_succ, List.map_append,
      List.map_singleton, List.getLast?_concat]

/-- C2 (amended): for every pair of endpoints and every random environment,
`MoveMouseHumanLike` dispatches a non-empty sequence of positions whose
first element lies within 1px of `from` on each axis (the per-point
`rand.Intn(3)-1` jitter is applied to the first dispatched point as well, so
exact equality does not hold) and whose last element lies within 3px of `to`
on each axis. -/
theorem moveMouse_endpoints (env : MoveEnv) (fromX fromY toX toY : ℤ) :
    MoveMouseHumanLike env fromX fromY toX toY ≠ [] ∧
    |((MoveMouseHumanLike env fromX fromY toX toY).headD (0, 0)).1 - fromX| ≤ 1 ∧
    |((MoveMouseHumanLike env fromX fromY toX toY).headD (0, 0)).2 - fromY| ≤ 1 ∧
    |((MoveMouseHumanLike env fromX fromY toX toY).getLastD (0, 0)).1 - toX| ≤ 3 ∧
    |((MoveMouseHumanLike env fromX fromY toX toY).getLastD (0, 0)).2 - toY| ≤ 3 := by
  have hhead := moveMouse_head env fromX fromY toX toY
  have hlast := moveMouse_getLast env fromX fromY toX toY
  have h5 : 5 ≤ moveSteps env fromX fromY toX toY := by unfold moveSteps; omega
  have hne : MoveMouseHumanLike env fromX fromY toX toY ≠ [] := by
    intro h; rw [h] at hhead; simp at hhead
  have hheadD : (MoveMouseHumanLike env fromX fromY toX toY).headD (0, 0) =
      movePoint env fromX fromY toX toY (moveSteps env fromX fromY toX toY) 0 := by
    rw [List.headD_eq_head?_getD, hhead]; rfl
  have hlastD : (MoveMouseHumanLike env fromX fromY toX toY).getLastD (0, 0) =
      (if env.micro then
        (toX + (((env.mjR 1).1 : ℕ) : ℤ) - 1, toY + (((env.mjR 1).2 : ℕ) : ℤ) - 1)
      else movePoint env fromX fromY toX toY (moveSteps env fromX fromY toX toY)
        (moveSteps env fromX fromY toX toY)) := by
    rw [List.getLastD_eq_getLast?, hlast]; rfl
  refine ⟨hne, ?_, ?_, ?_, ?_⟩
  · rw [hheadD, movePoint_zero]
    have := (env.jxR 0).isLt
    rw [abs_le]; constructor <;> push_cast <;> omega
  · rw [hheadD, movePoint_zero]
    have := (env.jyR 0).isLt
    rw [abs_le]; constructor <;> push_cast <;> omega
  · rw [hlastD]
    by_cases hm : env.micro
    · rw [if_pos hm]
      have := ((env.mjR 1).1).isLt
      rw [abs_le]; constructor <;> push_cast <;> omega
    · rw [if_neg hm, movePoint_last env fromX fromY toX toY _ h5]
      have := (env.jxR (moveSteps env fromX fromY toX toY)).isLt
      rw [abs_le]; constructor <;> push_cast <;> omega
  · rw [hlastD]
    by_cases hm : env.micro
    · rw [if_pos hm]
      have := ((env.mjR 1).2).isLt
      rw [abs_le]; constructor <;> push_cast <;> omega
    · rw [if_neg hm, movePoint_last env fromX fromY toX toY _ h5]
      have := (env.jyR (moveSteps env fromX fromY toX toY)).isLt
      rw [abs_le]; constructor <;> push_cast <;> omega

/-- A concrete environment whose first-point jitter draw is `2`, so the
first dispatched position is `from + (2 - 1) = from + 1` on each axis. -/
def moveEnvShifted : MoveEnv where
  stepsR := 0
  c1xR := 0
  c1yR := 0
  c2xR := 0
  c2yR := 0
  overshoot := false
  magR := 0
  angCos := 0
  angSin := 0
  jxR := fun _ => 2
  jyR := fun _ => 2
  micro := false
  mjR := fun _ => (1, 1)

/-- C2 counterexample: with the jitter draw `rand.Intn(3) = 2` at step 0, the
first dispatched position of the move from `(0,0)` to `(100,100)` is `(1,1)`,
not `(0,0)` — the claim's "first position equals `from` exactly" is false. -/
theorem moveMouse_first_not_exact :
    ((MoveMouseHumanLike moveEnvShifted 0 0 100 100).headD (0, 0)) = (1, 1) ∧
    ((MoveMouseHumanLike moveEnvShifted 0 0 100 100).headD (0, 0)) ≠ ((0 : ℤ), (0 : ℤ)) := by
  have h : ((MoveMouseHumanLike moveEnvShifted 0 0 100 100).headD (0, 0)) = (1, 1) := by
    have hh := moveMouse_head moveEnvShifted 0 0 100 100
    rw [List.headD_eq_head?_getD, hh, movePoint_zero]
    rfl
  exact ⟨h, by rw [h]; decide⟩

/-- C5: in the degenerate case `from = to` (in fact for every pair of
endpoints) the generator still yields at least one trajectory point — at
least 41, one per loop index `0..steps` — and the step count, the divisor in
`t := float64(i)/float64(steps)`, is strictly positive, so the parameter
computation never divides by zero. -/
theorem moveMouse_degenerate (env : MoveEnv) (fromX fromY : ℤ) :
    1 ≤ (MoveMouseHumanLike env fromX fromY fromX fromY).length ∧
    0 < moveSteps env fromX fromY fromX fromY := by
  constructor
  · unfold MoveMouseHumanLike
    rw [List.length_append, List.length_map, List.length_range]
    omega
  · unfold moveSteps
    omega

/-- C8: for every pair of endpoints and every environment, the loop step
count equals the base 40, plus the floor of one twentieth of the true
Euclidean distance (the real square root of the sum of squared coordinate
deltas), plus the `rand.Intn(15)` draw — which ranges over `0..14`. -/
theorem moveSteps_formula (env : MoveEnv) (fromX fromY toX toY : ℤ) :
    moveSteps env fromX fromY toX toY =
      40 + ⌊Real.sqrt (((toX - fromX : ℤ) : ℝ) ^ 2 + ((toY - fromY : ℤ) : ℝ) ^ 2) / 20⌋₊ +
        (env.stepsR : ℕ) ∧
    (env.stepsR : ℕ) < 15 := by
  refine ⟨?_, env.stepsR.isLt⟩
  have hnn : (0 : ℤ) ≤ (toX - fromX) ^ 2 + (toY - fromY) ^ 2 := by positivity
  have hcast : (((distSq fromX fromY toX toY : ℕ) : ℝ)) =
      ((toX - fromX : ℤ) : ℝ) ^ 2 + ((toY - fromY : ℤ) : ℝ) ^ 2 := by
    have h1 : ((((toX - fromX) ^ 2 + (toY - fromY) ^ 2).toNat : ℕ) : ℝ) =
        (((toX - fromX) ^ 2 + (toY - fromY) ^ 2 : ℤ) : ℝ) := by
      exact_mod_cast congrArg (fun z : ℤ => (z : ℝ)) (Int.toNat_of_nonneg hnn)
    unfold distSq
    rw [h1]
    push_cast
    ring
  unfold moveSteps distDiv20
  rw [← Real.nat_floor_real_sqrt_eq_nat_sqrt, hcast]
  rw [show (20 : ℝ) = ((20 : ℕ) : ℝ) from by norm_num, Nat.floor_div_nat]

/-! ## Scroll generator (`internal/stealth`, `ScrollHumanLike`)

`ScrollHumanLike(p)` performs `steps := 3 + rand.Intn(5)` scroll actions;
each draws `px := 300 + rand.Intn(500)` and, with probability `0.3`, splits
it into `chunks := 2 + rand.Intn(3)` dispatches of `px/chunks` each;
afterwards, with probability `0.4`, it scrolls back up by
`100 + rand.Intn(120)`. -/

/-- One scroll call's worth of random draws: `rand.Intn(5)` for the step
count, then per step `rand.Intn(500)` for the magnitude, the chunking coin
`rand.Float64() < 0.3` and `rand.Intn(3)` for the chunk count, and finally
the scroll-back coin `rand.Float64() < 0.4` with its `rand.Intn(120)`. -/
structure ScrollEnv where
  stepsR : Fin 5
  pxR : ℕ → Fin 500
  chunky : ℕ → Bool
  chunksR : ℕ → Fin 3
  backUp : Bool
  backR : Fin 120

/-- `steps := 3 + rand.Intn(5)`. -/
def scrollStepCount (env : ScrollEnv) : ℕ := 3 + env.stepsR

/-- The per-step downward magnitudes `px := 300 + rand.Intn(500)`, before
any chunk splitting. -/
def scrollMagnitudes (env : ScrollEnv) : List ℕ :=
  (List.range (scrollStepCount env)).map (fun i => 300 + (env.pxR i : ℕ))

/-- Every `window.scrollBy` delta dispatched by `ScrollHumanLike`, in order:
per step either `chunks` dispatches of `px/chunks` or one dispatch of `px`,
then optionally the upward `-(100 + rand.Intn(120))`. -/
def ScrollHumanLike (env : ScrollEnv) : List ℤ :=
  (List.range (scrollStepCount env)).flatMap (fun i =>
    let px : ℕ := 300 + (env.pxR i : ℕ)
    if env.chunky i then
      let chunks : ℕ := 2 + (env.chunksR i : ℕ)
      List.replicate chunks ((px / chunks : ℕ) : ℤ)
    else [(px : ℤ)]) ++
    (if env.backUp then [-(100 + ((env.backR : ℕ) : ℤ))] else [])

/-- C9: every scroll sequence performs between 3 and 7 scroll steps, and
every step's downward magnitude, before any chunk splitting, lies in
`[300, 800]` pixels (the code draws `300 + rand.Intn(500) ∈ [300, 799]`). -/
theorem scrollHumanLike_bounds (env : ScrollEnv) :
    3 ≤ (scrollMagnitudes env).length ∧ (scrollMagnitudes env).length ≤ 7 ∧
    (scrollMagnitudes env).all (fun px => decide (300 ≤ px) && decide (px ≤ 800)) = true := by
  have hlen : (scrollMagnitudes env).length = 3 + (env.stepsR : ℕ) := by
    unfold scrollMagnitudes scrollStepCount
    rw [List.length_map, List.length_range]
  have h5 := env.stepsR.isLt
  refine ⟨by omega, by omega, ?_⟩
  rw [List.all_eq_true]
  intro px hpx
  unfold scrollMagnitudes at hpx
  rw [List.mem_map] at hpx
  obtain ⟨i, -, rfl⟩ := hpx
  have := (env.pxR i).isLt
  simp only [Bool.and_eq_true, decide_eq_true_eq]
  omega

/-! ## Click action (`internal/stealth`, `ClickHumanLike`)

`ClickHumanLike(p, el)` scrolls the element into view, reads its geometry
with `el.Shape()`, and — when the read errors or yields no bounding quads —
immediately returns `el.Click("left", 1)`, a plain non-humanized click,
instead of propagating the geometry failure.  Otherwise it computes the
bounding box of the first quad, picks a target inside the interior band,
moves there with `MoveMouseHumanLike` and dispatches mouse-press and
mouse-release events at the target.

A quad is the flat CDP list `[x0, y0, x1, y1, x2, y2, x3, y3]`; the source
scans it with `for i := 0; i += 2` comparing `quad[i]` against the running
x-bounds and `quad[i+1]` against the y-bounds.  The geometry-read result is
`Option (List Quad)`: `none` models `el.Shape()` returning an error.  The
`0.3`/`0.4` float literals of the interior-band computation are modelled by
the rationals `3/10`/`4/10`; the fallback-vs-humanized split proved below
does not depend on them. -/

/-- Flat 8-coordinate bounding quad as reported by the browser. -/
def Quad := List ℚ

/-- The `(x, y)` pairs `(quad[i], quad[i+1])` visited by the bounding-box
loop (`i = 0, 2, 4, ...`). -/
def quadPairs : List ℚ → List (ℚ × ℚ)
  | x :: y :: rest => (x, y) :: quadPairs rest
  | _ => []

/-- Bounding box `(minX, minY, maxX, maxY)` of a quad: all four running
bounds start from `(quad[0], quad[1])` and the loop folds `min`/`max` over
every visited pair. -/
def quadBounds (quad : List ℚ) : ℚ × ℚ × ℚ × ℚ :=
  let x0 := quad.headD 0
  let y0 := (quad.drop 1).headD 0
  let ps := quadPairs quad
  (ps.foldl (fun acc p => min acc p.1) x0,
   ps.foldl (fun acc p => min acc p.2) y0,
   ps.foldl (fun acc p => max acc p.1) x0,
   ps.foldl (fun acc p => max acc p.2) y0)

/-- Result of `ClickHumanLike`: either the non-humanized fallback
`el.Click("left", 1)`, or the humanized move-press-release sequence at the
computed in-element target. -/
inductive ClickAction where
  | fallbackClick
  | humanized (targetX targetY : ℤ)
deriving DecidableEq, Repr

/-- `ClickHumanLike` with the geometry read and the random draws explicit:
`shapeResult = none` models `el.Shape()` failing, `some quads` a successful
read; `r1`, `r2` are the two `rand.Float64()` draws of the target point. -/
def ClickHumanLike (shapeResult : Option (List Quad)) (r1 r2 : ℚ) : ClickAction :=
  match shapeResult with
  | none => ClickAction.fallbackClick
  | some [] => ClickAction.fallbackClick
  | some (quad :: _) =>
      let b := quadBounds quad
      let width := b.2.2.1 - b.1
      let height := b.2.2.2 - b.2.1
      ClickAction.humanized
        (goTrunc (b.1 + width * (3 / 10) + r1 * width * (4 / 10)))
        (goTrunc (b.2.1 + height * (3 / 10) + r2 * height * (4 / 10)))

/-- C6: whenever the element's geometry read fails — `el.Shape()` returns an
error, or it returns an empty quad list — `ClickHumanLike` does not
propagate the failure: for every pair of random draws it degrades to the
immediate non-humanized `el.Click("left", 1)` fallback. -/
theorem clickHumanLike_geometry_fallback (r1 r2 : ℚ) :
    ClickHumanLike none r1 r2 = ClickAction.fallbackClick ∧
    ClickHumanLike (some []) r1 r2 = ClickAction.fallbackClick := ⟨rfl, rfl⟩

/-! ## Store transactions (`internal/store`, `MarkConnectionSent` / `MarkMessageSent`)

Both functions open a single SQL transaction (`BeginTx`), run an `UPDATE`
on the profile row and an `INSERT` into `message_logs`, and `Commit`; a
deferred `Rollback` undoes everything if any statement (or the commit)
fails.  The embedding models the database as in-memory tables and the
`database/sql` transaction contract directly: statement and commit failures
are injected through `TxFaults`, and any failure yields the original
database (the rollback), while success yields both writes. -/

/-- A row of the `profiles` table (the columns these transactions touch). -/
structure ProfileRow where
  id : ℤ
  connectionSent : Bool
  connectionSentAt : Option ℤ
  messageSent : Bool
  messageSentAt : Option ℤ
  updatedAt : ℤ
deriving DecidableEq, Repr

/-- A row of the `message_logs` table. -/
structure MessageLogRow where
  profileId : ℤ
  logType : String
  content : String
  createdAt : ℤ
deriving DecidableEq, Repr

/-- The database state: the two tables these transactions touch. -/
structure DBState where
  profiles : List ProfileRow
  messageLogs : List MessageLogRow
deriving DecidableEq, Repr

/-- Which of the three fallible operations inside the transaction fail. -/
structure TxFaults where
  updateFails : Bool
  insertFails : Bool
  commitFails : Bool

/-- `UPDATE profiles SET connection_sent = 1, connection_sent_at = ?,
updated_at = ? WHERE id = ?`. -/
def setConnectionSent (ps : List ProfileRow) (id now : ℤ) : List ProfileRow :=
  ps.map fun p =>
    if p.id = id then
      { p with connectionSent := true, connectionSentAt := some now, updatedAt := now }
    else p

/-- `UPDATE profiles SET message_sent = 1, message_sent_at = ?,
updated_at = ? WHERE id = ?`. -/
def setMessageSent (ps : List ProfileRow) (id now : ℤ) : List ProfileRow :=
  ps.map fun p =>
    if p.id = id then
      { p with messageSent := true, messageSentAt := some now, updatedAt := now }
    else p

/-- `MarkConnectionSent(id, note)`: one transaction running the
`connection_sent` profile update and the `connection_note` log insert;
returns the resulting database and whether the transaction committed.  On
any injected failure the deferred rollback leaves the database unchanged. -/
def MarkConnectionSent (db : DBState) (id : ℤ) (note : String) (now : ℤ)
    (f : TxFaults) : DBState × Bool :=
  if f.updateFails then (db, false)
  else
    let afterUpdate : DBState := { db with profiles := setConnectionSent db.profiles id now }
    if f.insertFails then (db, false)
    else
      let afterInsert : DBState :=
        { afterUpdate with
          messageLogs := afterUpdate.messageLogs ++ [⟨id, "connection_note", note, now⟩] }
      if f.commitFails then (db, false) else (afterInsert, true)

/-- `MarkMessageSent(id, content)`: one transaction running the
`message_sent` profile update and the `follow_up` log insert. -/
def MarkMessageSent (db : DBState) (id : ℤ) (content : String) (now : ℤ)
    (f : TxFaults) : DBState × Bool :=
  if f.updateFails then (db, false)
  else
    let afterUpdate : DBState := { db with profiles := setMessageSent db.profiles id now }
    if f.insertFails then (db, false)
    else
      let afterInsert : DBState :=
        { afterUpdate with
          messageLogs := afterUpdate.messageLogs ++ [⟨id, "follow_up", content, now⟩] }
      if f.commitFails then (db, false) else (afterInsert, true)

/-- C10: both mark operations are atomic.  For every database, profile id,
payload and fault injection, either the transaction commits and the result
carries both effects — the profile-flag update and the appended
`message_logs` row — or it reports failure and the database is exactly the
original: a profile is never flagged without its log row and no log row is
added without the flag. -/
theorem markSent_atomic (db : DBState) (id : ℤ) (note content : String) (now : ℤ)
    (f : TxFaults) :
    (((MarkConnectionSent db id note now f).2 = true ∧
      (MarkConnectionSent db id note now f).1.profiles = setConnectionSent db.profiles id now ∧
      (MarkConnectionSent db id note now f).1.messageLogs =
        db.messageLogs ++ [⟨id, "connection_note", note, now⟩]) ∨
     ((MarkConnectionSent db id note now f).2 = false ∧
      (MarkConnectionSent db id note now f).1 = db)) ∧
    (((MarkMessageSent db id content now f).2 = true ∧
      (MarkMessageSent db id content now f).1.profiles = setMessageSent db.profiles id now ∧
      (MarkMessageSent db id content now f).1.messageLogs =
        db.messageLogs ++ [⟨id, "follow_up", content, now⟩]) ∨
     ((MarkMessageSent db id content now f).2 = false ∧
      (MarkMessageSent db id content now f).1 = db)) := by
  unfold MarkConnectionSent MarkMessageSent
  constructor <;> split_ifs <;> simp

end LinkedBot
